import Mathlib

/-!
Shallow embedding of the `libui`/`iui` binding layer
(`src/libui/src/controls/window.rs` and `src/iui/src/controls/textentry.rs`)
together with the standard-library string conversions they use at the FFI
boundary.

Native C strings are modelled as lists of byte values (`List Nat`, each entry
intended `< 256`; any other value is simply an invalid UTF-8 byte to the
decoder).  Rust `&str`/`String` values are modelled as `List Char`: Lean's
`Char` carries exactly Rust's `char` validity invariant (a Unicode scalar
value), so a list of chars is a faithful model of a Rust string's character
content, and `utf8Encode` below is `str::as_bytes`.

The native toolkit itself is out of scope (per the spec): a native text
control is modelled by the byte buffer its get-text call returns, a native
window by the fields the wrapper can set through the FFI surface, and each
native create call by the opaque handle it returns.
-/

namespace LibUI

/-- Bytes of a native C string (terminator not stored). -/
abbrev Bytes := List Nat

/-- The Unicode replacement character U+FFFD, used by Rust's
`String::from_utf8_lossy` / `CStr::to_string_lossy` for ill-formed input. -/
def replacementChar : Char := Char.ofNat 0xFFFD

/-- Whether a byte is a UTF-8 continuation byte (`0x80 ..= 0xBF`). -/
def isCont (b : Nat) : Prop := 0x80 ≤ b ∧ b ≤ 0xBF

instance (b : Nat) : Decidable (isCont b) := by unfold isCont; infer_instance

/-- Lower bound for the first continuation byte after lead byte `b`
(the WHATWG UTF-8 decoder's special cases for `0xE0` and `0xF0`). -/
def cont1Lo (b : Nat) : Nat := if b = 0xE0 then 0xA0 else if b = 0xF0 then 0x90 else 0x80

/-- Upper bound for the first continuation byte after lead byte `b`
(the WHATWG UTF-8 decoder's special cases for `0xED` and `0xF4`). -/
def cont1Hi (b : Nat) : Nat := if b = 0xED then 0x9F else if b = 0xF4 then 0x8F else 0xBF

/-- Decode one UTF-8 sequence (or one maximal subpart of an ill-formed
sequence, which yields `replacementChar`) from the front of the byte list,
returning the decoded character and the number of bytes consumed.  This is
the unit step of Rust's `String::from_utf8_lossy` ("substitution of maximal
subparts").  On the empty list the result is unused by `lossyDecode`. -/
def decodeOne : List Nat → Char × Nat
  | [] => (replacementChar, 1)
  | b :: rest =>
    if b ≤ 0x7F then
      (Char.ofNat b, 1)
    else if 0xC2 ≤ b ∧ b ≤ 0xDF then
      match rest with
      | b1 :: _ =>
        if isCont b1 then (Char.ofNat ((b - 0xC0) * 0x40 + (b1 - 0x80)), 2)
        else (replacementChar, 1)
      | [] => (replacementChar, 1)
    else if 0xE0 ≤ b ∧ b ≤ 0xEF then
      match rest with
      | b1 :: rest1 =>
        if cont1Lo b ≤ b1 ∧ b1 ≤ cont1Hi b then
          match rest1 with
          | b2 :: _ =>
            if isCont b2 then
              (Char.ofNat ((b - 0xE0) * 0x1000 + (b1 - 0x80) * 0x40 + (b2 - 0x80)), 3)
            else (replacementChar, 2)
          | [] => (replacementChar, 2)
        else (replacementChar, 1)
      | [] => (replacementChar, 1)
    else if 0xF0 ≤ b ∧ b ≤ 0xF4 then
      match rest with
      | b1 :: rest1 =>
        if cont1Lo b ≤ b1 ∧ b1 ≤ cont1Hi b then
          match rest1 with
          | b2 :: rest2 =>
            if isCont b2 then
              match rest2 with
              | b3 :: _ =>
                if isCont b3 then
                  (Char.ofNat
                    ((b - 0xF0) * 0x40000 + (b1 - 0x80) * 0x1000 +
                      (b2 - 0x80) * 0x40 + (b3 - 0x80)), 4)
                else (replacementChar, 3)
              | [] => (replacementChar, 3)
            else (replacementChar, 2)
          | [] => (replacementChar, 2)
        else (replacementChar, 1)
      | [] => (replacementChar, 1)
    else
      (replacementChar, 1)

/-- Rust's `String::from_utf8_lossy` (hence `CStr::to_string_lossy` on the
bytes of the C string up to its terminator): total on every byte list,
replacing each maximal subpart of an ill-formed subsequence with U+FFFD. -/
def lossyDecode (l : List Nat) : List Char :=
  match l with
  | [] => []
  | b :: rest =>
    (decodeOne (b :: rest)).1 :: lossyDecode ((b :: rest).drop (decodeOne (b :: rest)).2)
termination_by l.length
decreasing_by
  simp only [List.length_drop]
  have h1 : 1 ≤ (decodeOne (b :: rest)).2 := by
    unfold decodeOne
    dsimp only
    repeat' first
      | omega
      | split
  simp only [List.length_cons]
  omega

/-- Rust's `char` UTF-8 encoding (`char::encode_utf8`), as the byte list. -/
def utf8EncodeChar (c : Char) : List Nat :=
  if c.toNat ≤ 0x7F then
    [c.toNat]
  else if c.toNat ≤ 0x7FF then
    [0xC0 + c.toNat / 0x40, 0x80 + c.toNat % 0x40]
  else if c.toNat ≤ 0xFFFF then
    [0xE0 + c.toNat / 0x1000, 0x80 + c.toNat / 0x40 % 0x40, 0x80 + c.toNat % 0x40]
  else
    [0xF0 + c.toNat / 0x40000, 0x80 + c.toNat / 0x1000 % 0x40,
      0x80 + c.toNat / 0x40 % 0x40, 0x80 + c.toNat % 0x40]

/-- Rust's `str::as_bytes`: the UTF-8 encoding of a string. -/
def utf8Encode (s : List Char) : Bytes := (s.map utf8EncodeChar).flatten


/-- Rust's `CString::new` on the bytes of a string: it fails (`NulError`)
exactly when the bytes contain a NUL byte, and otherwise yields the same
bytes as the C string's content.  The source always calls `.unwrap()` on the
result, so a `none` here models a panic of the wrapper. -/
def cStringNew (bs : Bytes) : Option Bytes := if 0 ∈ bs then none else some bs

/-- Modelled from the spec: the helper `str_tools::to_toolkit_string` is not
among the provided sources; per the spec, the boundary encoder performs
"line-ending normalization" before handing text to the native side.  We model
that normalization as rewriting each `\n` to `\r\n`. -/
def addCR : List Char → List Char
  | [] => []
  | c :: rest =>
    if c = Char.ofNat 10 then Char.ofNat 13 :: Char.ofNat 10 :: addCR rest
    else c :: addCR rest

/-- Modelled from the spec: the inverse normalization applied by the boundary
decoder `str_tools::from_toolkit_string`, rewriting each `\r\n` back to `\n`. -/
def removeCR : List Char → List Char
  | [] => []
  | [c] => [c]
  | c1 :: c2 :: rest =>
    if c1 = Char.ofNat 13 ∧ c2 = Char.ofNat 10 then Char.ofNat 10 :: removeCR rest
    else c1 :: removeCR (c2 :: rest)

/-- Modelled from the spec: `str_tools::to_toolkit_string` — line-ending
normalization followed by `CString` construction ("encode/decode text at the
boundary (line-ending normalization, lossy UTF-8 decoding of native C
strings)"). -/
def to_toolkit_string (s : List Char) : Option Bytes := cStringNew (utf8Encode (addCR s))

/-- Modelled from the spec: `str_tools::from_toolkit_string` — lossy UTF-8
decoding of the native C string followed by the inverse line-ending
normalization. -/
def from_toolkit_string (bs : Bytes) : List Char := removeCR (lossyDecode bs)

/-!
`callback_helpers` (`to_heap_ptr` / `from_void_ptr`) is not among the
provided sources either.  Modelled from the spec: "box a closure, hand its
raw address to the native side alongside a trampoline function pointer, and
on invocation reinterpret the pointer back to the closure type and call it".
The heap of boxed closures is a list of closures addressed by index; boxing
appends, and reinterpreting an address looks the closure up.
-/

/-- A heap of boxed closures of type `α`; an address is an index. -/
structure CallbackHeap (α : Type) where
  slots : List α

/-- Modelled from the spec: `callback_helpers::to_heap_ptr` — heap-box the
closure and return its raw address. -/
def to_heap_ptr {α : Type} (f : α) (h : CallbackHeap α) : Nat × CallbackHeap α :=
  (h.slots.length, ⟨h.slots ++ [f]⟩)

/-- Modelled from the spec: `callback_helpers::from_void_ptr` — reinterpret a
raw address back to the closure stored there. -/
def from_void_ptr {α : Type} (data : Nat) (h : CallbackHeap α) : Option α :=
  h.slots[data]?


/-!
Text entries — `src/iui/src/controls/textentry.rs`.

The wrapper handle types generated by `define_control!` hold one opaque
native pointer each; `from_raw` is the bare constructor.  The native text
controls themselves (both `uiEntry` and `uiMultilineEntry`) are modelled by
the byte buffer their get-text call returns plus the callback context
pointer their `OnChanged` registration stores; `uiEntrySetText` /
`uiMultilineEntrySetText` replace the buffer.
-/

/-- Wrapper handle generated by `define_control!` for `Entry`. -/
structure Entry where
  uiEntry : Nat
deriving DecidableEq

/-- Wrapper handle generated by `define_control!` for `PasswordEntry`. -/
structure PasswordEntry where
  uiEntry : Nat
deriving DecidableEq

/-- Wrapper handle generated by `define_control!` for `SearchEntry`. -/
structure SearchEntry where
  uiEntry : Nat
deriving DecidableEq

/-- Wrapper handle generated by `define_control!` for `MultilineEntry`. -/
structure MultilineEntry where
  uiMultilineEntry : Nat
deriving DecidableEq

/-- The native state behind a text control: the bytes its get-text call
returns, and the `data` pointer stored by its `OnChanged` registration. -/
structure NativeEntry where
  text : Bytes
  onChangedData : Option Nat
deriving DecidableEq

/-- Native `uiEntrySetText` / `uiMultilineEntrySetText`. -/
def uiEntrySetText (bs : Bytes) (e : NativeEntry) : NativeEntry := { e with text := bs }

/-- Native `uiEntryOnChanged` / `uiMultilineEntryOnChanged`: stores the
`data` context pointer (the trampoline function pointer is fixed per
registration site and is modelled by the `changed_c_callback` functions
below). -/
def uiEntryOnChanged (data : Nat) (e : NativeEntry) : NativeEntry :=
  { e with onChangedData := some data }

/-- `Entry::new`: wraps the handle returned by `uiNewEntry` with no check. -/
def Entry.new (handle : Nat) : Entry := ⟨handle⟩

/-- `PasswordEntry::new`: wraps the handle returned by `uiNewPasswordEntry`
with no check. -/
def PasswordEntry.new (handle : Nat) : PasswordEntry := ⟨handle⟩

/-- `SearchEntry::new`: wraps the handle returned by `uiNewSearchEntry`
with no check. -/
def SearchEntry.new (handle : Nat) : SearchEntry := ⟨handle⟩

/-- `MultilineEntry::new`: wraps the handle returned by `uiNewMultilineEntry`
with no check. -/
def MultilineEntry.new (handle : Nat) : MultilineEntry := ⟨handle⟩

/-- `<Entry as TextEntry>::value`: `from_toolkit_string(uiEntryText(..))`. -/
def Entry.value (e : NativeEntry) : List Char := from_toolkit_string e.text

/-- `<Entry as TextEntry>::set_value`: `uiEntrySetText(.., to_toolkit_string(value))`;
`none` models the `CString` panic inside the encoder. -/
def Entry.set_value (value : List Char) (e : NativeEntry) : Option NativeEntry :=
  (to_toolkit_string value).map fun cstring => uiEntrySetText cstring e

/-- `<Entry as TextEntry>::on_changed`: `to_heap_ptr` the closure, register
its raw address with the native side. -/
def Entry.on_changed {α : Type} (callback : List Char → α) (e : NativeEntry)
    (h : CallbackHeap (List Char → α)) : NativeEntry × CallbackHeap (List Char → α) :=
  let p := to_heap_ptr callback h
  (uiEntryOnChanged p.1 e, p.2)

/-- The trampoline `c_callback` inside `<Entry as TextEntry>::on_changed`:
reads `uiEntryText(entry)`, decodes it with `CStr::to_string_lossy`, and
calls the closure recovered by `from_void_ptr` on the result.  `none` models
an invocation whose `data` pointer holds no closure. -/
def Entry.changed_c_callback {α : Type} (e : NativeEntry) (data : Nat)
    (h : CallbackHeap (List Char → α)) : Option α :=
  (from_void_ptr data h).map fun f => f (lossyDecode e.text)

/-- `<PasswordEntry as TextEntry>::value`: plain `CStr::to_string_lossy`
on `uiEntryText(..)` — no `from_toolkit_string`. -/
def PasswordEntry.value (e : NativeEntry) : List Char := lossyDecode e.text

/-- `<PasswordEntry as TextEntry>::set_value`: plain
`CString::new(value.as_bytes().to_vec()).unwrap()` — no `to_toolkit_string`. -/
def PasswordEntry.set_value (value : List Char) (e : NativeEntry) : Option NativeEntry :=
  (cStringNew (utf8Encode value)).map fun cstring => uiEntrySetText cstring e

/-- `<PasswordEntry as TextEntry>::on_changed`: `Box::new(Box::new(callback))`
leaked via `mem::forget`, its raw address registered with the native side —
the same heap-boxing effect as `to_heap_ptr`. -/
def PasswordEntry.on_changed {α : Type} (callback : List Char → α) (e : NativeEntry)
    (h : CallbackHeap (List Char → α)) : NativeEntry × CallbackHeap (List Char → α) :=
  let p := to_heap_ptr callback h
  (uiEntryOnChanged p.1 e, p.2)

/-- The trampoline `c_callback` inside `<PasswordEntry as TextEntry>::on_changed`:
decodes `uiEntryText(entry)` with `from_toolkit_string` and calls the closure
the `data` pointer is reinterpreted as. -/
def PasswordEntry.changed_c_callback {α : Type} (e : NativeEntry) (data : Nat)
    (h : CallbackHeap (List Char → α)) : Option α :=
  (from_void_ptr data h).map fun f => f (from_toolkit_string e.text)

/-- `<SearchEntry as TextEntry>::value`: `from_toolkit_string(uiEntryText(..))`. -/
def SearchEntry.value (e : NativeEntry) : List Char := from_toolkit_string e.text

/-- `<SearchEntry as TextEntry>::set_value`: via `to_toolkit_string`. -/
def SearchEntry.set_value (value : List Char) (e : NativeEntry) : Option NativeEntry :=
  (to_toolkit_string value).map fun cstring => uiEntrySetText cstring e

/-- `<SearchEntry as TextEntry>::on_changed`: same shape as `Entry`. -/
def SearchEntry.on_changed {α : Type} (callback : List Char → α) (e : NativeEntry)
    (h : CallbackHeap (List Char → α)) : NativeEntry × CallbackHeap (List Char → α) :=
  let p := to_heap_ptr callback h
  (uiEntryOnChanged p.1 e, p.2)

/-- The trampoline inside `<SearchEntry as TextEntry>::on_changed`:
`CStr::to_string_lossy` of the current text, then the recovered closure. -/
def SearchEntry.changed_c_callback {α : Type} (e : NativeEntry) (data : Nat)
    (h : CallbackHeap (List Char → α)) : Option α :=
  (from_void_ptr data h).map fun f => f (lossyDecode e.text)

/-- `<MultilineEntry as TextEntry>::value`:
`from_toolkit_string(uiMultilineEntryText(..))`. -/
def MultilineEntry.value (e : NativeEntry) : List Char := from_toolkit_string e.text

/-- `<MultilineEntry as TextEntry>::set_value`: via `to_toolkit_string`. -/
def MultilineEntry.set_value (value : List Char) (e : NativeEntry) : Option NativeEntry :=
  (to_toolkit_string value).map fun cstring => uiEntrySetText cstring e

/-- `<MultilineEntry as TextEntry>::on_changed`: same shape as `Entry`. -/
def MultilineEntry.on_changed {α : Type} (callback : List Char → α) (e : NativeEntry)
    (h : CallbackHeap (List Char → α)) : NativeEntry × CallbackHeap (List Char → α) :=
  let p := to_heap_ptr callback h
  (uiEntryOnChanged p.1 e, p.2)

/-- The trampoline inside `<MultilineEntry as TextEntry>::on_changed`:
`CStr::to_string_lossy` of `uiMultilineEntryText(entry)`, then the closure. -/
def MultilineEntry.changed_c_callback {α : Type} (e : NativeEntry) (data : Nat)
    (h : CallbackHeap (List Char → α)) : Option α :=
  (from_void_ptr data h).map fun f => f (lossyDecode e.text)

/-!
Windows — `src/libui/src/controls/window.rs`.

The `WINDOWS` registry is declared with `thread_local!`, so it is modelled as
a family of lists indexed by the identifier of the thread performing the
access.  A native window is modelled by the fields the wrapper can reach
through the FFI surface; `uiNewWindow` returns a fresh native window whose
callback context pointers are unset.  `UI::quit` is modelled as the emission
of a `UIAction.quit` action.
-/

/-- A `Window` can either have a menubar or not. -/
inductive WindowType
  | HasMenubar
  | NoMenubar
deriving DecidableEq

/-- Wrapper handle generated by `define_control!` for `Window`. -/
structure Window where
  uiWindow : Nat
deriving DecidableEq

/-- Observable effects a closure can request from the `UI` context; the only
one used in this module is `UI::quit`. -/
inductive UIAction
  | quit
deriving DecidableEq

/-- The native state behind a `uiWindow`: its title bytes, geometry and
menubar flag from creation, the margined flag, and the `data` context
pointers stored by `uiWindowOnClosing` / `uiWindowOnPositionChanged`. -/
structure NativeWindow where
  title : Bytes
  width : Int
  height : Int
  hasMenubar : Bool
  margined : Bool
  onClosingData : Option Nat
  onPositionChangedData : Option Nat

/-- Native `uiNewWindow`: a fresh window with the given title bytes,
geometry and menubar flag, and nothing else configured. -/
def uiNewWindow (ctitle : Bytes) (width height : Int) (hasMenubar : Bool) : NativeWindow :=
  { title := ctitle, width := width, height := height, hasMenubar := hasMenubar,
    margined := false, onClosingData := none, onPositionChangedData := none }

/-- The `thread_local! WINDOWS` registry: one list of created windows per
thread, all initially empty. -/
structure Registry where
  tls : Nat → List Window

/-- The `WINDOWS.with(|windows| windows.borrow_mut().push(..))` step inside
`Window::new`, performed by thread `t`. -/
def WINDOWS_push (t : Nat) (w : Window) (r : Registry) : Registry :=
  ⟨fun t2 => if t2 = t then r.tls t2 ++ [w] else r.tls t2⟩

/-- `Window::set_margined`: `uiWindowSetMargined(.., margined as c_int)`. -/
def Window.set_margined (margined : Bool) (w : NativeWindow) : NativeWindow :=
  { w with margined := margined }

/-- `Window::margined`: `uiWindowMargined(..) != 0`. -/
def Window.margined (w : NativeWindow) : Bool := w.margined

/-- `Window::on_closing`: `to_heap_ptr` the closure and register its raw
address (plus the `c_callback` trampoline) with `uiWindowOnClosing`. -/
def Window.on_closing {γ : Type} (callback : Window → γ) (w : NativeWindow)
    (h : CallbackHeap (Window → γ)) : NativeWindow × CallbackHeap (Window → γ) :=
  let p := to_heap_ptr callback h
  ({ w with onClosingData := some p.1 }, p.2)

/-- The trampoline `c_callback` inside `Window::on_closing`: rebuilds
`Window { uiWindow: window }`, calls the closure `from_void_ptr` recovers
from `data` on it, and returns `0`.  `none` models an invocation whose
`data` pointer holds no closure. -/
def Window.closing_c_callback {γ : Type} (window : Nat) (data : Nat)
    (h : CallbackHeap (Window → γ)) : Option (γ × Int) :=
  (from_void_ptr data h).map fun f => (f ⟨window⟩, 0)

/-- `Window::on_position_changed`: same boxing and registration through
`uiWindowOnPositionChanged`. -/
def Window.on_position_changed {γ : Type} (callback : Window → γ) (w : NativeWindow)
    (h : CallbackHeap (Window → γ)) : NativeWindow × CallbackHeap (Window → γ) :=
  let p := to_heap_ptr callback h
  ({ w with onPositionChangedData := some p.1 }, p.2)

/-- The trampoline `c_callback` inside `Window::on_position_changed`:
rebuilds the window handle and calls the recovered closure on it. -/
def Window.position_changed_c_callback {γ : Type} (window : Nat) (data : Nat)
    (h : CallbackHeap (Window → γ)) : Option γ :=
  (from_void_ptr data h).map fun f => f ⟨window⟩

/-- `Window::new`, performed by thread `thread`, where `handle` is the
pointer the native `uiNewWindow` call returns: converts the title (panicking
on NUL, modelled by `none`), wraps the handle unchecked, pushes the wrapper
onto the calling thread's `WINDOWS` list, registers the default `on_closing`
closure `|_| ui.quit()`, and turns margins on.  Returns the wrapper together
with the resulting native window state, registry, and closure heap. -/
def Window.new (title : List Char) (width height : Int) (t : WindowType)
    (thread : Nat) (handle : Nat) (reg : Registry)
    (heap : CallbackHeap (Window → List UIAction)) :
    Option (Window × NativeWindow × Registry × CallbackHeap (Window → List UIAction)) :=
  match cStringNew (utf8Encode title) with
  | none => none
  | some c_string =>
    let has_menubar := match t with
      | WindowType.HasMenubar => true
      | WindowType.NoMenubar => false
    let nw := uiNewWindow c_string width height has_menubar
    let window : Window := ⟨handle⟩
    let reg2 := WINDOWS_push thread window reg
    let step := Window.on_closing (fun _ => [UIAction.quit]) nw heap
    let nw2 := Window.set_margined true step.1
    some (window, nw2, reg2, step.2)

/-- `Window::title`: `CStr::from_ptr(uiWindowTitle(..)).to_string_lossy()`. -/
def Window.title (w : NativeWindow) : List Char := lossyDecode w.title

/-- `Window::title_ref`: the raw `CStr` bytes of `uiWindowTitle(..)`. -/
def Window.title_ref (w : NativeWindow) : Bytes := w.title

/-- `Window::set_title`: `uiWindowSetTitle` with `CString::new(..).unwrap()`;
`none` models the panic on an interior NUL. -/
def Window.set_title (title : List Char) (w : NativeWindow) : Option NativeWindow :=
  (cStringNew (utf8Encode title)).map fun c_string => { w with title := c_string }

/-- `Window::open_file`: `uiOpenFile` returns either a null pointer
(`none`) or a C string; null maps to `None`, otherwise the lossy decoding
of the returned string becomes the `PathBuf`. -/
def Window.open_file (nativeResult : Option Bytes) : Option (List Char) :=
  match nativeResult with
  | none => none
  | some ptr => some (lossyDecode ptr)

/-- `Window::save_file`: same shape over `uiSaveFile`. -/
def Window.save_file (nativeResult : Option Bytes) : Option (List Char) :=
  match nativeResult with
  | none => none
  | some ptr => some (lossyDecode ptr)

/-- `Window::open_folder`: same shape over `uiOpenFolder`. -/
def Window.open_folder (nativeResult : Option Bytes) : Option (List Char) :=
  match nativeResult with
  | none => none
  | some ptr => some (lossyDecode ptr)

/-- `Window::modal_msg`: the `(title, description)` C strings handed to
`uiMsgBox`; `none` models the `CString::new(..).unwrap()` panic. -/
def Window.modal_msg (title description : List Char) : Option (Bytes × Bytes) :=
  match cStringNew (utf8Encode title) with
  | none => none
  | some c_title =>
    match cStringNew (utf8Encode description) with
    | none => none
    | some c_description => some (c_title, c_description)

/-- `Window::modal_err`: the `(title, description)` C strings handed to
`uiMsgBoxError`; `none` models the `CString::new(..).unwrap()` panic. -/
def Window.modal_err (title description : List Char) : Option (Bytes × Bytes) :=
  match cStringNew (utf8Encode title) with
  | none => none
  | some c_title =>
    match cStringNew (utf8Encode description) with
    | none => none
    | some c_description => some (c_title, c_description)

/-- `Window::destroy_all_windows`, performed by thread `thread`: drains the
calling thread's `WINDOWS` list, calling `destroy` on each drained window.
Returns the list of windows destroyed (in drain order) and the resulting
registry. -/
def Window.destroy_all_windows (thread : Nat) (r : Registry) : List Window × Registry :=
  (r.tls thread, ⟨fun t2 => if t2 = thread then [] else r.tls t2⟩)

/-- One registry-affecting event on a given thread: a `Window::new` push or
a `Window::destroy_all_windows` drain. -/
inductive WEvent
  | create (w : Window)
  | destroyAll

/-- How an event performed by thread `t` acts on the registry. -/
def regStep (t : Nat) (r : Registry) : WEvent → Registry
  | WEvent.create w => WINDOWS_push t w r
  | WEvent.destroyAll => (Window.destroy_all_windows t r).2

/-- The specification of one event's effect on a single thread's list:
creation appends, bulk destruction clears. -/
def regSpec (l : List Window) : WEvent → List Window
  | WEvent.create w => l ++ [w]
  | WEvent.destroyAll => []

/-! Facts about the embedded library functions. -/

theorem lossyDecode_nil : lossyDecode [] = [] := by
  rw [lossyDecode]

theorem lossyDecode_cons (b : Nat) (rest : List Nat) :
    lossyDecode (b :: rest) =
      (decodeOne (b :: rest)).1 :: lossyDecode ((b :: rest).drop (decodeOne (b :: rest)).2) := by
  rw [lossyDecode]

theorem utf8Encode_nil : utf8Encode [] = [] := rfl

theorem utf8Encode_cons (c : Char) (s : List Char) :
    utf8Encode (c :: s) = utf8EncodeChar c ++ utf8Encode s := by
  simp [utf8Encode]

/-- Validity of a Rust `char`, at the `Nat` level. -/
theorem char_toNat_valid (c : Char) :
    c.toNat < 0xD800 ∨ (0xE000 ≤ c.toNat ∧ c.toNat < 0x110000) := by
  rcases c.valid with h | ⟨h1, h2⟩
  · left
    exact h
  · right
    exact ⟨h1, h2⟩

theorem utf8EncodeChar_ne_nil (c : Char) : utf8EncodeChar c ≠ [] := by
  unfold utf8EncodeChar
  split
  · simp
  · split
    · simp
    · split <;> simp

/-- Decoding the front of a byte stream that starts with the UTF-8 encoding
of `c` yields exactly `c` and consumes exactly that encoding. -/
theorem decodeOne_encodeChar (c : Char) (t : List Nat) :
    decodeOne (utf8EncodeChar c ++ t) = (c, (utf8EncodeChar c).length) := by
  have hval := char_toNat_valid c
  have hub : c.toNat < 0x110000 := by rcases hval with h | ⟨_, h⟩ <;> omega
  have hofNat : Char.ofNat c.toNat = c := Char.ofNat_toNat c
  unfold utf8EncodeChar
  by_cases h1 : c.toNat ≤ 0x7F
  · rw [if_pos h1]
    simp only [List.cons_append, List.nil_append, decodeOne]
    rw [if_pos h1, hofNat]
    simp
  · rw [if_neg h1]
    by_cases h2 : c.toNat ≤ 0x7FF
    · rw [if_pos h2]
      simp only [List.cons_append, List.nil_append, decodeOne]
      have hb1 : ¬ (0xC0 + c.toNat / 0x40 ≤ 0x7F) := by omega
      have hb2 : 0xC2 ≤ 0xC0 + c.toNat / 0x40 ∧ 0xC0 + c.toNat / 0x40 ≤ 0xDF := by
        constructor <;> omega
      have hc1 : isCont (0x80 + c.toNat % 0x40) := ⟨by omega, by omega⟩
      rw [if_neg hb1, if_pos hb2, if_pos hc1]
      have hv : (0xC0 + c.toNat / 0x40 - 0xC0) * 0x40 + (0x80 + c.toNat % 0x40 - 0x80)
          = c.toNat := by omega
      rw [hv, hofNat]
      simp
    · rw [if_neg h2]
      by_cases h3 : c.toNat ≤ 0xFFFF
      · rw [if_pos h3]
        simp only [List.cons_append, List.nil_append, decodeOne]
        have hb1 : ¬ (0xE0 + c.toNat / 0x1000 ≤ 0x7F) := by omega
        have hb2 : ¬ (0xC2 ≤ 0xE0 + c.toNat / 0x1000 ∧ 0xE0 + c.toNat / 0x1000 ≤ 0xDF) := by
          omega
        have hb3 : 0xE0 ≤ 0xE0 + c.toNat / 0x1000 ∧ 0xE0 + c.toNat / 0x1000 ≤ 0xEF := by
          constructor <;> omega
        have hcont1 : cont1Lo (0xE0 + c.toNat / 0x1000) ≤ 0x80 + c.toNat / 0x40 % 0x40 ∧
            0x80 + c.toNat / 0x40 % 0x40 ≤ cont1Hi (0xE0 + c.toNat / 0x1000) := by
          unfold cont1Lo cont1Hi
          constructor
          · split
            · omega
            · split <;> omega
          · split
            · rcases hval with h | ⟨h, _⟩ <;> omega
            · split <;> omega
        have hc2 : isCont (0x80 + c.toNat % 0x40) := ⟨by omega, by omega⟩
        rw [if_neg hb1, if_neg hb2, if_pos hb3, if_pos hcont1, if_pos hc2]
        have hv : (0xE0 + c.toNat / 0x1000 - 0xE0) * 0x1000 +
            (0x80 + c.toNat / 0x40 % 0x40 - 0x80) * 0x40 +
            (0x80 + c.toNat % 0x40 - 0x80) = c.toNat := by omega
        rw [hv, hofNat]
        simp
      · rw [if_neg h3]
        simp only [List.cons_append, List.nil_append, decodeOne]
        have hb1 : ¬ (0xF0 + c.toNat / 0x40000 ≤ 0x7F) := by omega
        have hb2 : ¬ (0xC2 ≤ 0xF0 + c.toNat / 0x40000 ∧ 0xF0 + c.toNat / 0x40000 ≤ 0xDF) := by
          omega
        have hb3 : ¬ (0xE0 ≤ 0xF0 + c.toNat / 0x40000 ∧ 0xF0 + c.toNat / 0x40000 ≤ 0xEF) := by
          omega
        have hb4 : 0xF0 ≤ 0xF0 + c.toNat / 0x40000 ∧ 0xF0 + c.toNat / 0x40000 ≤ 0xF4 := by
          constructor <;> omega
        have hcont1 : cont1Lo (0xF0 + c.toNat / 0x40000) ≤ 0x80 + c.toNat / 0x1000 % 0x40 ∧
            0x80 + c.toNat / 0x1000 % 0x40 ≤ cont1Hi (0xF0 + c.toNat / 0x40000) := by
          unfold cont1Lo cont1Hi
          constructor
          · split
            · omega
            · split <;> omega
          · split
            · omega
            · split <;> omega
        have hc2 : isCont (0x80 + c.toNat / 0x40 % 0x40) := ⟨by omega, by omega⟩
        have hc3 : isCont (0x80 + c.toNat % 0x40) := ⟨by omega, by omega⟩
        rw [if_neg hb1, if_neg hb2, if_neg hb3, if_pos hb4, if_pos hcont1, if_pos hc2, if_pos hc3]
        have hv : (0xF0 + c.toNat / 0x40000 - 0xF0) * 0x40000 +
            (0x80 + c.toNat / 0x1000 % 0x40 - 0x80) * 0x1000 +
            (0x80 + c.toNat / 0x40 % 0x40 - 0x80) * 0x40 +
            (0x80 + c.toNat % 0x40 - 0x80) = c.toNat := by omega
        rw [hv, hofNat]
        simp

theorem lossyDecode_eq_of_decodeOne (l : List Nat) (c : Char) (k : Nat)
    (hl : l ≠ []) (h : decodeOne l = (c, k)) :
    lossyDecode l = c :: lossyDecode (l.drop k) := by
  rcases l with _ | ⟨b, rest⟩
  · exact absurd rfl hl
  · rw [lossyDecode_cons, h]

/-- Lossy decoding peels off a correctly encoded character. -/
theorem lossyDecode_encodeChar_append (c : Char) (t : List Nat) :
    lossyDecode (utf8EncodeChar c ++ t) = c :: lossyDecode t := by
  have hne : utf8EncodeChar c ++ t ≠ [] := by
    have := utf8EncodeChar_ne_nil c
    rcases hc : utf8EncodeChar c with _ | ⟨x, xs⟩
    · exact absurd hc this
    · simp
  rw [lossyDecode_eq_of_decodeOne _ _ _ hne (decodeOne_encodeChar c t)]
  congr 1
  rw [List.drop_left]

/-- Lossy UTF-8 decoding is a left inverse of UTF-8 encoding: every valid
Rust string survives the boundary round trip unchanged. -/
theorem lossyDecode_utf8Encode (s : List Char) : lossyDecode (utf8Encode s) = s := by
  induction s with
  | nil => simpa [utf8Encode] using lossyDecode_nil
  | cons c cs ih =>
    rw [utf8Encode_cons, lossyDecode_encodeChar_append, ih]

theorem zero_mem_utf8EncodeChar (c : Char) : 0 ∈ utf8EncodeChar c ↔ c = Char.ofNat 0 := by
  constructor
  · intro h
    have hofNat := Char.ofNat_toNat c
    unfold utf8EncodeChar at h
    split at h
    · simp at h
      rw [h]
      exact hofNat.symm
    · split at h
      · simp at h
        omega
      · split at h
        · simp at h
          omega
        · simp at h
          omega
  · intro h
    subst h
    decide

/-- A Rust string's UTF-8 bytes contain a NUL byte exactly when the string
contains the NUL character. -/
theorem zero_mem_utf8Encode (s : List Char) : 0 ∈ utf8Encode s ↔ Char.ofNat 0 ∈ s := by
  induction s with
  | nil => simp [utf8Encode]
  | cons c cs ih =>
    rw [utf8Encode_cons]
    simp only [List.mem_append, List.mem_cons, ih, zero_mem_utf8EncodeChar]
    constructor
    · rintro (h | h)
      exacts [Or.inl h.symm, Or.inr h]
    · rintro (h | h)
      exacts [Or.inl h.symm, Or.inr h]

theorem from_void_ptr_to_heap_ptr {α : Type} (f : α) (h : CallbackHeap α) :
    from_void_ptr (to_heap_ptr f h).1 (to_heap_ptr f h).2 = some f := by
  simp [from_void_ptr, to_heap_ptr]

theorem cStringNew_eq_none (bs : Bytes) : cStringNew bs = none ↔ 0 ∈ bs := by
  unfold cStringNew
  split <;> simp [*]

theorem cStringNew_some {bs c : Bytes} (h : cStringNew bs = some c) : c = bs := by
  unfold cStringNew at h
  split at h
  · cases h
  · exact (Option.some.inj h).symm

/-! Claim theorems. -/

/-- C1: each of `Window::open_file`, `Window::save_file` and
`Window::open_folder` returns `None` exactly when the underlying native
dialog call returned a null pointer, and otherwise returns `Some` of the
path built from the lossy UTF-8 decoding of the returned native C string. -/
theorem dialogs_none_iff_null (r : Option Bytes) :
    (Window.open_file r = none ↔ r = none) ∧
    (Window.save_file r = none ↔ r = none) ∧
    (Window.open_folder r = none ↔ r = none) ∧
    (∀ bs : Bytes, Window.open_file (some bs) = some (lossyDecode bs)) ∧
    (∀ bs : Bytes, Window.save_file (some bs) = some (lossyDecode bs)) ∧
    (∀ bs : Bytes, Window.open_folder (some bs) = some (lossyDecode bs)) := by
  cases r <;>
    simp [Window.open_file, Window.save_file, Window.open_folder]

/-- C3: the four entry constructors and `Window::new` always return a
wrapped handle built from whatever pointer the native create call returned,
with no failure check on that pointer — in particular a null (`0`) handle is
wrapped all the same, and `Window::new` produces a window whenever the title
conversion does not panic, irrespective of the create call's return value. -/
theorem constructors_infallible :
    (∀ handle, Entry.new handle = ⟨handle⟩) ∧
    (∀ handle, PasswordEntry.new handle = ⟨handle⟩) ∧
    (∀ handle, SearchEntry.new handle = ⟨handle⟩) ∧
    (∀ handle, MultilineEntry.new handle = ⟨handle⟩) ∧
    (∀ (title : List Char) (width height : Int) (t : WindowType) (thread handle : Nat)
      (reg : Registry) (heap : CallbackHeap (Window → List UIAction)),
      Char.ofNat 0 ∉ title →
        ∃ nw reg2 heap2,
          Window.new title width height t thread handle reg heap
            = some (⟨handle⟩, nw, reg2, heap2)) := by
  refine ⟨fun _ => rfl, fun _ => rfl, fun _ => rfl, fun _ => rfl, ?_⟩
  intro title width height t thread handle reg heap hnul
  have hz : (0 : Nat) ∉ utf8Encode title := fun hmem =>
    hnul ((zero_mem_utf8Encode title).mp hmem)
  unfold Window.new cStringNew
  rw [if_neg hz]
  exact ⟨_, _, _, rfl⟩

/-- C3 witness: instantiated at the empty title and a null (`0`) native
window handle. -/
theorem constructors_infallible_witness :
    Char.ofNat 0 ∉ ([] : List Char) ∧
    ∃ nw reg2 heap2,
      Window.new [] 640 480 WindowType.NoMenubar 0 0 ⟨fun _ => []⟩ ⟨[]⟩
        = some (⟨0⟩, nw, reg2, heap2) :=
  ⟨by simp,
    constructors_infallible.2.2.2.2 [] 640 480 WindowType.NoMenubar 0 0 ⟨fun _ => []⟩ ⟨[]⟩
      (by simp)⟩

/-- C8: `Window::new` (title), `Window::set_title`, `Window::modal_msg`,
`Window::modal_err` and `PasswordEntry::set_value` panic (modelled `none`)
exactly when an input string contains a NUL character (equivalently, when
its UTF-8 bytes contain a NUL byte); on NUL-free strings the `CString`
conversion, and hence the operation, succeeds. -/
theorem nul_string_panics (title description value : List Char) (width height : Int)
    (t : WindowType) (thread handle : Nat) (reg : Registry)
    (heap : CallbackHeap (Window → List UIAction)) (w : NativeWindow) (e : NativeEntry) :
    (Window.new title width height t thread handle reg heap = none ↔ Char.ofNat 0 ∈ title) ∧
    (Window.set_title title w = none ↔ Char.ofNat 0 ∈ title) ∧
    (Window.modal_msg title description = none ↔
      (Char.ofNat 0 ∈ title ∨ Char.ofNat 0 ∈ description)) ∧
    (Window.modal_err title description = none ↔
      (Char.ofNat 0 ∈ title ∨ Char.ofNat 0 ∈ description)) ∧
    (PasswordEntry.set_value value e = none ↔ Char.ofNat 0 ∈ value) := by
  have ht := (cStringNew_eq_none (utf8Encode title)).trans (zero_mem_utf8Encode title)
  have hd := (cStringNew_eq_none (utf8Encode description)).trans
    (zero_mem_utf8Encode description)
  have hv := (cStringNew_eq_none (utf8Encode value)).trans (zero_mem_utf8Encode value)
  refine ⟨?_, ?_, ?_, ?_, ?_⟩
  · unfold Window.new
    cases hc : cStringNew (utf8Encode title) with
    | none => simp [ht.mp hc]
    | some a =>
      have hnot : Char.ofNat 0 ∉ title := fun hmem => by
        rw [ht.mpr hmem] at hc
        cases hc
      simp [hnot]
  · unfold Window.set_title
    cases hc : cStringNew (utf8Encode title) with
    | none => simp [ht.mp hc]
    | some a =>
      have hnot : Char.ofNat 0 ∉ title := fun hmem => by
        rw [ht.mpr hmem] at hc
        cases hc
      simp [hnot]
  · unfold Window.modal_msg
    cases hc : cStringNew (utf8Encode title) with
    | none => simp [ht.mp hc]
    | some a =>
      have hnot : Char.ofNat 0 ∉ title := fun hmem => by
        rw [ht.mpr hmem] at hc
        cases hc
      cases hc2 : cStringNew (utf8Encode description) with
      | none => simp [hd.mp hc2, hnot]
      | some a2 =>
        have hnot2 : Char.ofNat 0 ∉ description := fun hmem => by
          rw [hd.mpr hmem] at hc2
          cases hc2
        simp [hnot, hnot2]
  · unfold Window.modal_err
    cases hc : cStringNew (utf8Encode title) with
    | none => simp [ht.mp hc]
    | some a =>
      have hnot : Char.ofNat 0 ∉ title := fun hmem => by
        rw [ht.mpr hmem] at hc
        cases hc
      cases hc2 : cStringNew (utf8Encode description) with
      | none => simp [hd.mp hc2, hnot]
      | some a2 =>
        have hnot2 : Char.ofNat 0 ∉ description := fun hmem => by
          rw [hd.mpr hmem] at hc2
          cases hc2
        simp [hnot, hnot2]
  · unfold PasswordEntry.set_value
    cases hc : cStringNew (utf8Encode value) with
    | none => simp [hv.mp hc]
    | some a =>
      have hnot : Char.ofNat 0 ∉ value := fun hmem => by
        rw [hv.mpr hmem] at hc
        cases hc
      simp [hnot]

/-- C10: `Window::destroy_all_windows` is idempotent on the calling thread's
registry: one call leaves it empty, and an immediately following second call
drains an empty list (performing zero destroy operations) and leaves the
registry empty. -/
theorem destroy_all_windows_idempotent (thread : Nat) (r : Registry) :
    (Window.destroy_all_windows thread r).2.tls thread = [] ∧
    (Window.destroy_all_windows thread (Window.destroy_all_windows thread r).2).1 = [] ∧
    (Window.destroy_all_windows thread
      (Window.destroy_all_windows thread r).2).2.tls thread = [] := by
  simp [Window.destroy_all_windows]

/-- C6: the text-reading operations (`value` of all four entry kinds and
`Window::title`) are total functions of the native byte sequence, producing
their result by lossy UTF-8 decoding (composed with the line-ending
normalization for the three normalizing kinds); lossy decoding recovers
every valid string exactly, and on malformed input (here the invalid byte
`0xFF`) it produces the replacement character instead of failing. -/
theorem text_reading_total_lossy :
    (∀ (bs : Bytes) (d : Option Nat), Entry.value ⟨bs, d⟩ = removeCR (lossyDecode bs)) ∧
    (∀ (bs : Bytes) (d : Option Nat), PasswordEntry.value ⟨bs, d⟩ = lossyDecode bs) ∧
    (∀ (bs : Bytes) (d : Option Nat), SearchEntry.value ⟨bs, d⟩ = removeCR (lossyDecode bs)) ∧
    (∀ (bs : Bytes) (d : Option Nat),
      MultilineEntry.value ⟨bs, d⟩ = removeCR (lossyDecode bs)) ∧
    (∀ w : NativeWindow, Window.title w = lossyDecode w.title) ∧
    (∀ s : List Char, lossyDecode (utf8Encode s) = s) ∧
    lossyDecode [0xFF, 0x61] = [replacementChar, Char.ofNat 0x61] := by
  refine ⟨fun _ _ => rfl, fun _ _ => rfl, fun _ _ => rfl, fun _ _ => rfl, fun _ => rfl,
    lossyDecode_utf8Encode, ?_⟩
  have h1 : decodeOne [(0xFF : Nat), 0x61] = (replacementChar, 1) := by decide
  have h2 : decodeOne [(0x61 : Nat)] = (Char.ofNat 0x61, 1) := by decide
  rw [lossyDecode_cons, h1]
  simp only [List.drop_succ_cons, List.drop_zero]
  rw [lossyDecode_cons, h2]
  simp only [List.drop_succ_cons, List.drop_zero]
  rw [lossyDecode_nil]

/-- C2 counterexample: `PasswordEntry::set_value` does not encode through
the normalizing toolkit encoder.  On the one-character string `"\n"` with an
empty native entry, the toolkit encoder path would store the normalized
bytes `[0x0D, 0x0A]`, but `PasswordEntry::set_value` stores `[0x0A]`. -/
theorem password_set_value_not_normalizing :
    PasswordEntry.set_value [Char.ofNat 10] ⟨[], none⟩ ≠
      (to_toolkit_string [Char.ofNat 10]).map fun cstring =>
        uiEntrySetText cstring ⟨[], none⟩ := by
  decide

/-- C2 as amended: `Entry`, `SearchEntry` and `MultilineEntry` apply the
same boundary text encoding/decoding — their `set_value` agree and store the
normalized encoding `utf8Encode (addCR v)`, and their `value` agree — while
`PasswordEntry` bypasses the normalizing helpers: its `set_value` stores the
plain encoding `utf8Encode v` and its `value` is the plain lossy decoding of
the native bytes with no line-ending denormalization. -/
theorem textentry_boundary_encoding :
    (∀ (v : List Char) (e : NativeEntry), Entry.set_value v e = SearchEntry.set_value v e) ∧
    (∀ (v : List Char) (e : NativeEntry),
      Entry.set_value v e = MultilineEntry.set_value v e) ∧
    (∀ e : NativeEntry, Entry.value e = SearchEntry.value e) ∧
    (∀ e : NativeEntry, Entry.value e = MultilineEntry.value e) ∧
    (∀ (v : List Char) (e e2 : NativeEntry), Entry.set_value v e = some e2 →
      e2.text = utf8Encode (addCR v)) ∧
    (∀ (v : List Char) (e e2 : NativeEntry), PasswordEntry.set_value v e = some e2 →
      e2.text = utf8Encode v) ∧
    (∀ e : NativeEntry, PasswordEntry.value e = lossyDecode e.text) := by
  refine ⟨fun _ _ => rfl, fun _ _ => rfl, fun _ => rfl, fun _ => rfl, ?_, ?_, fun _ => rfl⟩
  · intro v e e2 h
    unfold Entry.set_value to_toolkit_string at h
    rw [Option.map_eq_some'] at h
    obtain ⟨c, hc, hfe⟩ := h
    rw [← hfe]
    exact congrArg NativeEntry.text (congrArg (uiEntrySetText · e) (cStringNew_some hc))
  · intro v e e2 h
    unfold PasswordEntry.set_value at h
    rw [Option.map_eq_some'] at h
    obtain ⟨c, hc, hfe⟩ := h
    rw [← hfe]
    exact congrArg NativeEntry.text (congrArg (uiEntrySetText · e) (cStringNew_some hc))

/-- C2 witness: the normalizing conjunct applied at `"\n"` stores
`[0x0D, 0x0A]` for `Entry`, and the non-normalizing conjunct applied at
`"\n"` stores `[0x0A]` for `PasswordEntry`. -/
theorem textentry_boundary_encoding_witness :
    (⟨[0x0D, 0x0A], none⟩ : NativeEntry).text = utf8Encode (addCR [Char.ofNat 10]) ∧
    (⟨[0x0A], none⟩ : NativeEntry).text = utf8Encode [Char.ofNat 10] :=
  ⟨textentry_boundary_encoding.2.2.2.2.1 [Char.ofNat 10] ⟨[], none⟩ ⟨[0x0D, 0x0A], none⟩
      (by decide),
    textentry_boundary_encoding.2.2.2.2.2.1 [Char.ofNat 10] ⟨[], none⟩ ⟨[0x0A], none⟩
      (by decide)⟩

theorem regStep_tls (t : Nat) (r : Registry) (e : WEvent) :
    (regStep t r e).tls t = regSpec (r.tls t) e := by
  cases e <;> simp [regStep, regSpec, WINDOWS_push, Window.destroy_all_windows]

theorem foldl_regStep_tls (t : Nat) (es : List WEvent) (r : Registry) :
    (es.foldl (regStep t) r).tls t = es.foldl regSpec (r.tls t) := by
  induction es generalizing r with
  | nil => rfl
  | cons e es ih => rw [List.foldl_cons, List.foldl_cons, ih, regStep_tls]

/-- C4: every window created by `Window::new` is appended to the registry
list at creation; over any sequence of creations and bulk-destroys the
registry holds exactly the windows created and not yet bulk-destroyed (in
creation order); and `Window::destroy_all_windows` calls destroy on
precisely the registered windows and leaves the registry empty. -/
theorem windows_registry_exact (t : Nat) (r : Registry) :
    (∀ (title : List Char) (width height : Int) (ty : WindowType) (handle : Nat)
      (heap : CallbackHeap (Window → List UIAction)) (w : Window) (nw : NativeWindow)
      (reg2 : Registry) (heap2 : CallbackHeap (Window → List UIAction)),
      Window.new title width height ty t handle r heap = some (w, nw, reg2, heap2) →
        reg2.tls t = r.tls t ++ [w]) ∧
    (∀ es : List WEvent, (es.foldl (regStep t) r).tls t = es.foldl regSpec (r.tls t)) ∧
    (Window.destroy_all_windows t r).1 = r.tls t ∧
    (Window.destroy_all_windows t r).2.tls t = [] := by
  refine ⟨?_, fun es => foldl_regStep_tls t es r, rfl, by simp [Window.destroy_all_windows]⟩
  intro title width height ty handle heap w nw reg2 heap2 h
  unfold Window.new at h
  cases hc : cStringNew (utf8Encode title) with
  | none =>
    rw [hc] at h
    cases h
  | some a =>
    rw [hc] at h
    simp only [Option.some.injEq, Prod.mk.injEq] at h
    obtain ⟨hw, -, hreg, -⟩ := h
    rw [← hreg, ← hw]
    simp [WINDOWS_push]

/-- C4 witness: a concrete creation on thread `0` appends the new window to
the (initially empty) registry list of that thread. -/
theorem windows_registry_exact_witness :
    (WINDOWS_push 0 ⟨5⟩ ⟨fun _ => []⟩).tls 0 = (⟨fun _ => []⟩ : Registry).tls 0 ++ [⟨5⟩] :=
  (windows_registry_exact 0 ⟨fun _ => []⟩).1 [] 640 480 WindowType.NoMenubar 5 ⟨[]⟩
    ⟨5⟩ ⟨[], 640, 480, false, true, some 0, none⟩ (WINDOWS_push 0 ⟨5⟩ ⟨fun _ => []⟩)
    ⟨[fun _ => [UIAction.quit]]⟩ rfl

/-- C5: each `on_changed` registration (all four entry kinds) and each of
`Window::on_closing` / `Window::on_position_changed` heap-boxes the supplied
closure, hands its raw address to the native side, and the matching
trampoline invoked with that stored address calls the originally supplied
closure — for the text entries on the control's current text decoded from
the native C string, for the window callbacks on the rebuilt window handle
(the closing trampoline additionally returning `0`). -/
theorem callback_boxing_trampolines {α γ : Type} (f : List Char → α) (g : Window → γ)
    (e e2 : NativeEntry) (h : CallbackHeap (List Char → α))
    (hw : CallbackHeap (Window → γ)) (w : NativeWindow) (wptr : Nat) :
    ((Entry.on_changed f e h).1.onChangedData = some (to_heap_ptr f h).1 ∧
      Entry.changed_c_callback e2 (to_heap_ptr f h).1 (Entry.on_changed f e h).2
        = some (f (lossyDecode e2.text))) ∧
    ((PasswordEntry.on_changed f e h).1.onChangedData = some (to_heap_ptr f h).1 ∧
      PasswordEntry.changed_c_callback e2 (to_heap_ptr f h).1 (PasswordEntry.on_changed f e h).2
        = some (f (from_toolkit_string e2.text))) ∧
    ((SearchEntry.on_changed f e h).1.onChangedData = some (to_heap_ptr f h).1 ∧
      SearchEntry.changed_c_callback e2 (to_heap_ptr f h).1 (SearchEntry.on_changed f e h).2
        = some (f (lossyDecode e2.text))) ∧
    ((MultilineEntry.on_changed f e h).1.onChangedData = some (to_heap_ptr f h).1 ∧
      MultilineEntry.changed_c_callback e2 (to_heap_ptr f h).1 (MultilineEntry.on_changed f e h).2
        = some (f (lossyDecode e2.text))) ∧
    ((Window.on_closing g w hw).1.onClosingData = some (to_heap_ptr g hw).1 ∧
      Window.closing_c_callback wptr (to_heap_ptr g hw).1 (Window.on_closing g w hw).2
        = some (g ⟨wptr⟩, 0)) ∧
    ((Window.on_position_changed g w hw).1.onPositionChangedData = some (to_heap_ptr g hw).1 ∧
      Window.position_changed_c_callback wptr (to_heap_ptr g hw).1
          (Window.on_position_changed g w hw).2
        = some (g ⟨wptr⟩)) := by
  refine ⟨⟨rfl, ?_⟩, ⟨rfl, ?_⟩, ⟨rfl, ?_⟩, ⟨rfl, ?_⟩, ⟨rfl, ?_⟩, ⟨rfl, ?_⟩⟩ <;>
    simp [Entry.on_changed, Entry.changed_c_callback,
      PasswordEntry.on_changed, PasswordEntry.changed_c_callback,
      SearchEntry.on_changed, SearchEntry.changed_c_callback,
      MultilineEntry.on_changed, MultilineEntry.changed_c_callback,
      Window.on_closing, Window.closing_c_callback,
      Window.on_position_changed, Window.position_changed_c_callback,
      from_void_ptr_to_heap_ptr]

/-- C7 counterexample: the registry is not process-wide.  A window created
by `Window::new` on thread `0` lands in thread `0`'s list, but the list that
`Window::destroy_all_windows` drains when called from thread `1` is empty
and does not contain the created window. -/
theorem window_registry_not_process_wide :
    Window.new [] 640 480 WindowType.NoMenubar 0 5 ⟨fun _ => []⟩ ⟨[]⟩
      = some (⟨5⟩,
          Window.set_margined true
            (Window.on_closing (fun _ => [UIAction.quit])
              (uiNewWindow [] 640 480 false) ⟨[]⟩).1,
          WINDOWS_push 0 ⟨5⟩ ⟨fun _ => []⟩,
          (Window.on_closing (fun _ => [UIAction.quit])
            (uiNewWindow [] 640 480 false) ⟨[]⟩).2) ∧
    (WINDOWS_push 0 ⟨5⟩ ⟨fun _ => []⟩).tls 0 = [⟨5⟩] ∧
    (Window.destroy_all_windows 1 (WINDOWS_push 0 ⟨5⟩ ⟨fun _ => []⟩)).1 = [] ∧
    (⟨5⟩ : Window) ∉ (Window.destroy_all_windows 1 (WINDOWS_push 0 ⟨5⟩ ⟨fun _ => []⟩)).1 :=
  ⟨rfl, rfl, rfl, by simp [Window.destroy_all_windows, WINDOWS_push]⟩

/-- C7 as amended: the `WINDOWS` registry is thread-local, not process-wide.
A window created by `Window::new` on a thread appears in that thread's list;
the lists of all other threads are unchanged by the creation; and
`Window::destroy_all_windows` drains exactly the calling thread's list,
leaving every other thread's list untouched. -/
theorem windows_registry_thread_local (t t2 : Nat) (w : Window) (r : Registry) :
    w ∈ (WINDOWS_push t w r).tls t ∧
    (t2 ≠ t → (WINDOWS_push t w r).tls t2 = r.tls t2) ∧
    (Window.destroy_all_windows t r).1 = r.tls t ∧
    (Window.destroy_all_windows t r).2.tls t = [] ∧
    (t2 ≠ t → (Window.destroy_all_windows t r).2.tls t2 = r.tls t2) := by
  refine ⟨by simp [WINDOWS_push], fun hne => by simp [WINDOWS_push, hne], rfl,
    by simp [Window.destroy_all_windows], fun hne => by simp [Window.destroy_all_windows, hne]⟩

/-- C7 witness: a creation on thread `0` leaves thread `1`'s list unchanged. -/
theorem windows_registry_thread_local_witness :
    (1 : Nat) ≠ 0 ∧
    (WINDOWS_push 0 ⟨7⟩ ⟨fun _ => []⟩).tls 1 = (⟨fun _ => []⟩ : Registry).tls 1 :=
  ⟨by simp, (windows_registry_thread_local 0 1 ⟨7⟩ ⟨fun _ => []⟩).2.1 (by simp)⟩

/-- C9: every window `Window::new` returns has margins enabled, and its
registered `on_closing` context pointer designates the default closure,
whose invocation through the closing trampoline quits the application
(returning `0` to the native side) — so closing a fresh window quits unless
the caller re-registers `on_closing`. -/
theorem window_new_default_behavior (title : List Char) (width height : Int)
    (t : WindowType) (thread handle : Nat) (reg : Registry)
    (heap : CallbackHeap (Window → List UIAction)) (w : Window) (nw : NativeWindow)
    (reg2 : Registry) (heap2 : CallbackHeap (Window → List UIAction))
    (h : Window.new title width height t thread handle reg heap = some (w, nw, reg2, heap2)) :
    nw.margined = true ∧
    nw.onClosingData = some heap.slots.length ∧
    (∀ wptr, Window.closing_c_callback wptr heap.slots.length heap2
      = some ([UIAction.quit], 0)) := by
  unfold Window.new at h
  cases hc : cStringNew (utf8Encode title) with
  | none =>
    rw [hc] at h
    cases h
  | some a =>
    rw [hc] at h
    simp only [Option.some.injEq, Prod.mk.injEq] at h
    obtain ⟨-, hnw, -, hheap⟩ := h
    rw [← hnw, ← hheap]
    refine ⟨rfl, rfl, fun wptr => ?_⟩
    have hf := from_void_ptr_to_heap_ptr (fun _ : Window => [UIAction.quit]) heap
    simp only [Window.on_closing, Window.closing_c_callback, Window.set_margined]
    dsimp only [to_heap_ptr] at hf ⊢
    rw [hf]
    rfl

/-- C9 witness: a concrete `Window::new` call yields a margined native
window whose closing trampoline, fed the stored context address, emits the
quit action and returns `0`. -/
theorem window_new_default_behavior_witness :
    (⟨[], 640, 480, false, true, some 0, none⟩ : NativeWindow).margined = true ∧
    Window.closing_c_callback 7 0 ⟨[fun _ => [UIAction.quit]]⟩
      = some ([UIAction.quit], 0) := by
  have h := window_new_default_behavior [] 640 480 WindowType.NoMenubar 0 5 ⟨fun _ => []⟩
    ⟨[]⟩ ⟨5⟩ ⟨[], 640, 480, false, true, some 0, none⟩ (WINDOWS_push 0 ⟨5⟩ ⟨fun _ => []⟩)
    ⟨[fun _ => [UIAction.quit]]⟩ rfl
  exact ⟨h.1, h.2.2 7⟩

end LibUI
